import Mathlib

/-!
Verification development for the wix-cms-sdk repository: a shallow embedding
of the SDK's request-execution pipeline (retry executor, error classifier,
response normalizer, request transport) and of its query-condition
accumulator, with theorems checking the specification's claims against it.

Conventions of the embedding:
* JavaScript runtime values are modelled by `JsVal` (numbers as rationals,
  objects as association lists; reference identity is irrelevant to the
  properties proved here).
* Asynchronous operations become pure functions from the attempt number to
  an `Except` value; a thrown error is the `.error` branch.
* The executor's observable effects (number of invocations of the wrapped
  operation, `onRetry` observer invocations, backoff sleeps) are recorded in
  a `RetryTrace` instead of being performed.
-/

namespace WixSDK

/-- A JavaScript/JSON runtime value. Numbers are rationals (we do not model
floating-point rounding); objects are association lists of string keys. -/
inductive JsVal : Type where
  | null : JsVal
  | bool (b : Bool) : JsVal
  | num (q : ℚ) : JsVal
  | str (s : String) : JsVal
  | arr (elems : List JsVal) : JsVal
  | obj (fields : List (String × JsVal)) : JsVal

/-- Key lookup in an object's field list (first match; our models keep keys
unique, matching a JS object literal with distinct keys). -/
def lookupField : List (String × JsVal) → String → Option JsVal
  | [], _ => none
  | (k, v) :: rest, key => if k == key then some v else lookupField rest key

/-- JS property access `v[key]`: `none` models `undefined` (also the result of
property access on a primitive, which never throws except on null/undefined). -/
def getField : JsVal → String → Option JsVal
  | .obj fields, key => lookupField fields key
  | _, _ => none

/-- Optional-chained path access `v.a?.b?.c`. -/
def getPath (v : JsVal) : List String → Option JsVal
  | [] => some v
  | key :: rest =>
    match getField v key with
    | none => none
    | some w => getPath w rest

/-- JS truthiness of a value. -/
def jsTruthy : JsVal → Bool
  | .null => false
  | .bool b => b
  | .num q => q != 0
  | .str s => s != ""
  | .arr _ => true
  | .obj _ => true

/-- JS truthiness of a possibly-absent value (`undefined` is falsy). -/
def optTruthy : Option JsVal → Bool
  | none => false
  | some v => jsTruthy v

/-- JS `a || b` where `a` is a possibly-absent property. -/
def jsOrO (a : Option JsVal) (b : JsVal) : JsVal :=
  match a with
  | some v => if jsTruthy v then v else b
  | none => b

/-- Whether a possibly-absent value is a string, i.e. `typeof x === 'string'`. -/
def isStrOpt : Option JsVal → Bool
  | some (.str _) => true
  | _ => false

/-- Whether the substring occurs in the haystack (character-list form). -/
def charsHasSub (hay sub : List Char) : Bool :=
  match hay with
  | [] => sub.isEmpty
  | _ :: t => sub.isPrefixOf hay || charsHasSub t sub

/-- JS `s.includes(sub)`. -/
def strIncludes (s sub : String) : Bool :=
  charsHasSub s.toList sub.toList

/-!
## Retry/Timeout Executor — src/unnamed/part_009, `withRetry` (lines 196-231)

`withRetry(fn, config)` runs `for (attempt = 1; attempt <= maxAttempts;
attempt++) { try { return await fn(attempt) } catch (error) { lastError =
error; if (attempt === maxAttempts || !isRetryable(error)) throw error;
const delay = Math.min(baseDelay * 2 ** (attempt-1), maxDelay);
onRetry(error, attempt, delay); await sleep(delay); } } throw lastError;`.

The embedding recurses on the number of remaining attempts; at state
`(attempt, remaining)` reached from `(1, maxAttempts)` the loop guard
`attempt === maxAttempts` is exactly `remaining = 1`. The `onRetry` callback
and `sleep` are observational: the trace records their arguments.
-/

/-- What `withRetry` does in the end: return a value, throw the error of the
deciding attempt, or — when `maxAttempts < 1`, so the loop body never runs —
throw the still-undefined `lastError`. -/
inductive RetryOutcome (E A : Type) : Type where
  | ok (value : A) : RetryOutcome E A
  | err (error : E) : RetryOutcome E A
  | threwUndefined : RetryOutcome E A

/-- The observable behavior of one `withRetry` execution: its outcome, how
many times it invoked the wrapped operation, the `(error, attempt, delay)`
arguments of each `onRetry` observer call, and the slept delays in order. -/
structure RetryTrace (E A : Type) : Type where
  result : RetryOutcome E A
  attemptsMade : Nat
  onRetryEvents : List (E × Nat × ℚ)
  sleeps : List ℚ

/-- The retry configuration of `withRetry`; field defaults are the
`RETRY_CONFIG` constants of src/src/config/constants.js (maxAttempts 3,
baseDelay 1000 ms, maxDelay 10000 ms) and `withRetry`'s own default
predicate `() => true`. The `onRetry` observer is modelled by the trace. -/
structure RetryConfig (E : Type) : Type where
  maxAttempts : Nat := 3
  baseDelay : ℚ := 1000
  maxDelay : ℚ := 10000
  isRetryable : E → Bool := fun _ => true

/-- `Math.min(baseDelay * Math.pow(2, attempt - 1), maxDelay)`. -/
def backoffDelay (baseDelay maxDelay : ℚ) (attempt : Nat) : ℚ :=
  min (baseDelay * 2 ^ (attempt - 1)) maxDelay

/-- The retry loop from state `(attempt, remaining)`; `remaining = 1` is the
loop guard `attempt === maxAttempts`, `remaining = 0` means the loop is over
and the trailing `throw lastError` throws undefined. -/
def runRetry {E A : Type} (fn : Nat → Except E A) (cfg : RetryConfig E) :
    Nat → Nat → RetryTrace E A
  | _, 0 => ⟨.threwUndefined, 0, [], []⟩
  | attempt, r + 1 =>
    match fn attempt with
    | .ok a => ⟨.ok a, 1, [], []⟩
    | .error e =>
      if r = 0 ∨ cfg.isRetryable e = false then
        ⟨.err e, 1, [], []⟩
      else
        let d := backoffDelay cfg.baseDelay cfg.maxDelay attempt
        let rest := runRetry fn cfg (attempt + 1) r
        ⟨rest.result, rest.attemptsMade + 1,
          (e, attempt, d) :: rest.onRetryEvents, d :: rest.sleeps⟩

/-- `withRetry(fn, config)`: the loop starts at attempt 1 with
`maxAttempts` attempts remaining. -/
def withRetry {E A : Type} (fn : Nat → Except E A) (cfg : RetryConfig E) :
    RetryTrace E A :=
  runRetry fn cfg 1 cfg.maxAttempts

/-!
## String coercions of JS values

`jsValToDisplay` is the `String(x)` coercion used by template literals;
`jsonStringify` is `JSON.stringify(x)`. Number formatting follows Lean's
rational printer and string escaping is not reproduced — no claim below
depends on the printed form of a number or on escape sequences.
-/

mutual

/-- JS `String(x)` as used by template literals. -/
def jsValToDisplay : JsVal → String
  | .null => "null"
  | .bool true => "true"
  | .bool false => "false"
  | .num q => toString q
  | .str s => s
  | .arr xs => jsElemsDisplay xs
  | .obj _ => "[object Object]"

/-- `Array.prototype.join(",")`: elements comma-separated, `null` printed
as the empty string. -/
def jsElemsDisplay : List JsVal → String
  | [] => ""
  | [x] => jsElemDisplay x
  | x :: xs => jsElemDisplay x ++ "," ++ jsElemsDisplay xs

/-- One array element under `join`: `null` becomes empty. -/
def jsElemDisplay : JsVal → String
  | .null => ""
  | v => jsValToDisplay v

end

mutual

/-- `JSON.stringify(x)` (modulo string escaping). -/
def jsonStringify : JsVal → String
  | .null => "null"
  | .bool true => "true"
  | .bool false => "false"
  | .num q => toString q
  | .str s => "\"" ++ s ++ "\""
  | .arr xs => "[" ++ jsonStringifyElems xs ++ "]"
  | .obj fs => "\x7b" ++ jsonStringifyFields fs ++ "\x7d"

/-- Comma-separated serialization of an array's elements. -/
def jsonStringifyElems : List JsVal → String
  | [] => ""
  | [x] => jsonStringify x
  | x :: xs => jsonStringify x ++ "," ++ jsonStringifyElems xs

/-- Comma-separated serialization of an object's fields. -/
def jsonStringifyFields : List (String × JsVal) → String
  | [] => ""
  | [(k, v)] => "\"" ++ k ++ "\":" ++ jsonStringify v
  | (k, v) :: fs => "\"" ++ k ++ "\":" ++ jsonStringify v ++ "," ++ jsonStringifyFields fs

end

/-!
## Errors and their retryability — src/unnamed/part_009

A thrown JS `Error` as the pipeline inspects it: `isRetryableError` reads
only `status` and `message`; `handleResponse` attaches `wixError`;
`createDetailedError` attaches `status`, `statusText` and `body`.
-/

/-- The fields of a thrown `Error` object that the pipeline reads or sets.
`none` models an absent (`undefined`) field. -/
structure ErrJS : Type where
  status : Option Nat := none
  message : Option String := none
  wixError : Option JsVal := none
  statusText : Option String := none
  body : Option JsVal := none

/-- JS truthiness of `error.status` (a number: truthy unless absent or 0). -/
def errStatusTruthy : Option Nat → Bool
  | none => false
  | some s => s != 0

/-- The numeric value compared once `error.status` passed the truthy check. -/
def errStatusNum (e : ErrJS) : Nat :=
  e.status.getD 0

/-- `error.message?.includes(sub)`. -/
def msgIncludes (m : Option String) (sub : String) : Bool :=
  match m with
  | none => false
  | some s => strIncludes s sub

/-- src/unnamed/part_009, `isRetryableError` (lines 65-96), translated
branch for branch: the 4xx-except-429/408 early `return false`, then the
five `message.includes` network checks, then the 429/408/5xx status
checks, else `return false`. -/
def isRetryableError (e : ErrJS) : Bool :=
  if errStatusTruthy e.status
      && decide (400 ≤ errStatusNum e) && decide (errStatusNum e < 500)
      && (errStatusNum e != 429) && (errStatusNum e != 408) then
    false
  else if msgIncludes e.message "timeout" then true
  else if msgIncludes e.message "network" then true
  else if msgIncludes e.message "fetch" then true
  else if msgIncludes e.message "ECONNREFUSED" then true
  else if msgIncludes e.message "ETIMEDOUT" then true
  else if errStatusTruthy e.status && (errStatusNum e == 429) then true
  else if errStatusTruthy e.status && (errStatusNum e == 408) then true
  else if errStatusTruthy e.status
      && decide (500 ≤ errStatusNum e) && decide (errStatusNum e < 600) then true
  else false

/-- Whether the error's message indicates a network-level failure: one of
the five substrings the classifier looks for. -/
def networkishMessage (e : ErrJS) : Bool :=
  msgIncludes e.message "timeout" || msgIncludes e.message "network"
    || msgIncludes e.message "fetch" || msgIncludes e.message "ECONNREFUSED"
    || msgIncludes e.message "ETIMEDOUT"

/-- The classification exactly as claim C4 words it, clauses in the order
listed: an HTTP status in 400..499 other than 429 and 408 is not
retryable; status 429, 408 or in 500..599 is retryable; a network-level
message is retryable; every other error is not. -/
def claimedRetryable (e : ErrJS) : Bool :=
  match e.status with
  | some s =>
    if 400 ≤ s ∧ s < 500 ∧ s ≠ 429 ∧ s ≠ 408 then false
    else if s = 429 ∨ s = 408 ∨ (500 ≤ s ∧ s < 600) then true
    else if networkishMessage e then true
    else false
  | none => networkishMessage e

/-!
## Response normalizer

Three variants exist in the source; each is embedded separately.
-/

/-- src/unnamed/part_009, `formatErrorMessage` (lines 29-57): the friendly
message table for known backend error codes. -/
def friendlyMessage (key : String) : Option String :=
  if key == "WD_SCHEMA_DOES_NOT_EXIST" then
    some "Collection does not exist. Check the collection name in your Wix Data panel."
  else if key == "WD_PERMISSION_DENIED" then
    some "Permission denied. Check your API token and collection permissions."
  else if key == "WD_INVALID_QUERY" then
    some "Invalid query syntax."
  else none

/-- Whether `typeof msg === 'object' && msg !== null` (arrays included). -/
def jsObjLike : JsVal → Bool
  | .obj _ => true
  | .arr _ => true
  | _ => false

/-- src/unnamed/part_009, `formatErrorMessage` (lines 29-57). For an object:
`msg.details?.applicationError?.description`, then
`` `${code}: ${msg.name || 'Error'}` ``, then the friendly table or
`` `Error code: ${errorCode}` ``; otherwise the string itself or
`JSON.stringify(msg)`. The returned value is read under string coercion. -/
def formatErrorMessage (msg : JsVal) : String :=
  let description := getPath msg ["details", "applicationError", "description"]
  let code := getPath msg ["details", "applicationError", "code"]
  let errorCode := getField msg "code"
  if jsObjLike msg && optTruthy description then
    jsValToDisplay (description.getD .null)
  else if jsObjLike msg && optTruthy code then
    jsValToDisplay (code.getD .null) ++ ": "
      ++ jsValToDisplay (jsOrO (getField msg "name") (.str "Error"))
  else if jsObjLike msg && optTruthy errorCode then
    match friendlyMessage (jsValToDisplay (errorCode.getD .null)) with
    | some m => m
    | none => "Error code: " ++ jsValToDisplay (errorCode.getD .null)
  else
    match msg with
    | .str s => s
    | other => jsonStringify other

/-- JS `data.status === 'failed'`: strict equality with a string literal
is true only for that very string. -/
def statusIsFailed (data : JsVal) : Bool :=
  match getField data "status" with
  | some (.str s) => s == "failed"
  | _ => false

/-- The `data.errorMessage || data.error || 'Unknown error'` chain of
part_009's `handleResponse`. -/
def failedMsgChain (data : JsVal) : JsVal :=
  jsOrO (getField data "errorMessage") (jsOrO (getField data "error") (.str "Unknown error"))

/-- The message of the application error part_009's `handleResponse` throws
for a `status: "failed"` body. -/
def appMsgOf (data : JsVal) : String :=
  "Wix API Error: " ++ formatErrorMessage (failedMsgChain data)

/-- The application error part_009's `handleResponse` throws for a
`status: "failed"` body: no HTTP status, the formatted message, and the
body attached as `wixError`. -/
def appErrorOf (data : JsVal) : ErrJS :=
  { message := some (appMsgOf data), wixError := some data }

/-- src/unnamed/part_009, `handleResponse` (lines 8-23), on the parsed
body: reject a falsy body or a non-string `status`, throw the formatted
application error when `status === 'failed'`, else return the body. -/
def handleResponseP9 (data : JsVal) : Except ErrJS JsVal :=
  if !jsTruthy data || !isStrOpt (getField data "status") then
    .error { message := some "Invalid response format from Wix API" }
  else if statusIsFailed data then
    .error (appErrorOf data)
  else
    .ok data

/-- The two `Error`s src/src/utils/errorHandler.js `handleResponse` can
throw: the malformed-format error, or the application error with its
coerced message. -/
inductive EHError : Type where
  | invalidFormat : EHError
  | wixApi (message : String) : EHError

/-- src/src/utils/errorHandler.js, `handleResponse` (lines 4-17), on the
parsed body: `if (!data || typeof data.status !== 'string') throw`, then
`if (data.status === 'failed') throw Error("Wix API Error: " + msg)`,
else return the body unchanged. -/
def handleResponseEH (data : JsVal) : Except EHError JsVal :=
  if !jsTruthy data || !isStrOpt (getField data "status") then
    .error .invalidFormat
  else if statusIsFailed data then
    .error (.wixApi ("Wix API Error: " ++ jsValToDisplay (failedMsgChain data)))
  else
    .ok data

/-- Whether the value is JS `null` (reading a property of it throws). -/
def isNullV : JsVal → Bool
  | .null => true
  | _ => false

/-- The fixed failure object src/src/classes/wixRequest.js `handleResponse`
returns from its catch block; the message is `error?.message || "Unknown
error"`. -/
def invalidResponseObj (message : String) : JsVal :=
  .obj [("status", .str "failed"), ("error", .str "invalid_response"),
        ("errorMessage", .str (if message == "" then "Unknown error" else message))]

/-- src/src/classes/wixRequest.js, `handleResponse` (lines 61-70), on the
result of `response.json()` (`.error` = the parse rejected): any error —
a parse failure, the `TypeError` from reading `.status` of `null`, or the
thrown `Invalid response format` — is caught and becomes the fixed
`invalid_response` failure object; a body with truthy `status` is
returned as-is. -/
def handleResponseW : Except String JsVal → JsVal
  | .error parseError => invalidResponseObj parseError
  | .ok data =>
    if isNullV data then
      invalidResponseObj "Cannot read properties of null (reading 'status')"
    else if optTruthy (getField data "status") then data
    else invalidResponseObj "Invalid response format"

/-!
## Request transport pipeline — src/unnamed/part_011 (first class) with
the helpers of src/unnamed/part_009

One attempt of `#executeQuery` performs `#makeRequest` (fetch; on a
non-2xx response throw `createDetailedError`) and feeds the body to
`handleResponse`. The remote side is scripted by a `ServerStep` per
attempt number.
-/

/-- What the server does on one attempt: the fetch itself throws (network
failure or timeout), or an HTTP response arrives with a status, a status
text and a parsed JSON body (`none` = unparseable body). -/
inductive ServerStep : Type where
  | netFail (message : String) : ServerStep
  | http (status : Nat) (statusText : String) (body : Option JsVal) : ServerStep

/-- src/unnamed/part_009, `createDetailedError` (lines 104-133): message
from `body?.errorMessage` or `body?.error` through `formatErrorMessage`,
else `` `HTTP ${status}: ${statusText}` ``; `status`, `statusText` and
`body` attached to the error. -/
def createDetailedError (status : Nat) (statusText : String) (body : Option JsVal) : ErrJS :=
  let base := "HTTP " ++ toString status ++ ": " ++ statusText
  let message :=
    match body with
    | some b =>
      if optTruthy (getField b "errorMessage") then
        formatErrorMessage ((getField b "errorMessage").getD .null)
      else if optTruthy (getField b "error") then
        formatErrorMessage ((getField b "error").getD .null)
      else base
    | none => base
  { status := some status, message := some message,
    statusText := some statusText, body := body }

/-- One attempt of part_011's `#executeQuery`: a thrown fetch error
propagates; a non-ok response (`ok` is status 200..299) throws
`createDetailedError`; an ok response's body goes through part_009's
`handleResponse`. An ok response whose body did not parse is modelled as
a thrown parse error. -/
def attemptResult : ServerStep → Except ErrJS JsVal
  | .netFail message => .error { message := some message }
  | .http status statusText body =>
    if 200 ≤ status ∧ status < 300 then
      match body with
      | some b => handleResponseP9 b
      | none => .error { message := some "Unexpected end of JSON input" }
    else
      .error (createDetailedError status statusText body)

/-- src/unnamed/part_011, `#executeQuery` (lines 137-152): `withRetry`
around one request per attempt, with `isRetryable: isRetryableError` and
the `RETRY_CONFIG` defaults for the other fields. -/
def executeQuery (server : Nat → ServerStep) : RetryTrace ErrJS JsVal :=
  withRetry (fun attempt => attemptResult (server attempt))
    { isRetryable := isRetryableError }

/-!
## Query Facade / Condition Accumulator — src/unnamed/part_010 (second
class, lines 170-499)

The fluent `QueryBuilder`: every fluent method calls
`#addCondition(field, operator, value, extraValue)`, which pushes one
`{field, operator, value, extraValue}` record onto `#conditions` and
returns `this`; `limit`/`skip` first validate their argument and throw a
`TypeError` on failure. The builder's mutable `#conditions` array is
modelled by explicit state passing: a method call maps the current
condition list to the next (or to a thrown error), "returns the same
instance" becoming "the chain continues on the resulting state".
-/

/-- One recorded condition: `field` is `null` for the paging operators,
`value`/`extraValue` are `undefined` when a fluent method passes fewer
arguments to `#addCondition`. -/
structure Condition : Type where
  field : Option String
  operator : String
  value : Option JsVal
  extraValue : Option JsVal

/-- `#addCondition`: push one record, keep everything already recorded. -/
def addCondition (conds : List Condition) (field : Option String)
    (operator : String) (value extraValue : Option JsVal) : List Condition :=
  conds ++ [⟨field, operator, value, extraValue⟩]

/-- `Number.isInteger(v) && v > 0`: what `limit` accepts. -/
def isPositiveIntVal : JsVal → Bool
  | .num q => q.den == 1 && q > 0
  | _ => false

/-- `Number.isInteger(v) && v >= 0`: what `skip` accepts. -/
def isNonNegIntVal : JsVal → Bool
  | .num q => q.den == 1 && q ≥ 0
  | _ => false

/-- One fluent condition call with its arguments, one constructor per
fluent method of the source class (`include` is spelled `include'`, a
Lean keyword). -/
inductive FluentCall : Type where
  | eq (field : String) (value : JsVal) : FluentCall
  | ne (field : String) (value : JsVal) : FluentCall
  | gt (field : String) (value : JsVal) : FluentCall
  | gte (field : String) (value : JsVal) : FluentCall
  | lt (field : String) (value : JsVal) : FluentCall
  | lte (field : String) (value : JsVal) : FluentCall
  | include' (field : String) : FluentCall
  | contains (field : String) (value : JsVal) : FluentCall
  | startsWith (field : String) (value : JsVal) : FluentCall
  | endsWith (field : String) (value : JsVal) : FluentCall
  | between (field : String) (minValue maxValue : JsVal) : FluentCall
  | fields (field : String) : FluentCall
  | limit (value : JsVal) : FluentCall
  | skip (value : JsVal) : FluentCall
  | hasSome (field : String) (value : JsVal) : FluentCall
  | hasAll (field : String) (value : JsVal) : FluentCall
  | isEmpty (field : String) : FluentCall
  | isNotEmpty (field : String) : FluentCall
  | ascending (field : String) : FluentCall
  | descending (field : String) : FluentCall

/-- The condition a (validation-passing) fluent call records, with the
operator string and argument placement of the source method. -/
def condOf : FluentCall → Condition
  | .eq f v => ⟨some f, "eq", some v, none⟩
  | .ne f v => ⟨some f, "ne", some v, none⟩
  | .gt f v => ⟨some f, "gt", some v, none⟩
  | .gte f v => ⟨some f, "gte", some v, none⟩
  | .lt f v => ⟨some f, "lt", some v, none⟩
  | .lte f v => ⟨some f, "lte", some v, none⟩
  | .include' f => ⟨some f, "include", none, none⟩
  | .contains f v => ⟨some f, "contains", some v, none⟩
  | .startsWith f v => ⟨some f, "startsWith", some v, none⟩
  | .endsWith f v => ⟨some f, "endsWith", some v, none⟩
  | .between f lo hi => ⟨some f, "between", some lo, some hi⟩
  | .fields f => ⟨some f, "fields", none, none⟩
  | .limit v => ⟨none, "limit", some v, none⟩
  | .skip v => ⟨none, "skip", some v, none⟩
  | .hasSome f v => ⟨some f, "hasSome", some v, none⟩
  | .hasAll f v => ⟨some f, "hasAll", some v, none⟩
  | .isEmpty f => ⟨some f, "isEmpty", none, none⟩
  | .isNotEmpty f => ⟨some f, "isNotEmpty", none, none⟩
  | .ascending f => ⟨some f, "ascending", none, none⟩
  | .descending f => ⟨some f, "descending", none, none⟩

/-- Whether the call passes its local validation: only `limit` and `skip`
validate (positive integer, non-negative integer); every other fluent
method accepts anything. -/
def callValid : FluentCall → Bool
  | .limit v => isPositiveIntVal v
  | .skip v => isNonNegIntVal v
  | _ => true

/-- One fluent method call on the builder state: `limit`/`skip` throw
their `TypeError` (the `.error` branch, carrying the message) before
touching the conditions; every call that passes appends exactly its one
condition via `#addCondition`. -/
def applyCall (conds : List Condition) : FluentCall → Except String (List Condition)
  | .limit v =>
    if isPositiveIntVal v then
      .ok (addCondition conds none "limit" (some v) none)
    else
      .error "Limit must be a positive integer"
  | .skip v =>
    if isNonNegIntVal v then
      .ok (addCondition conds none "skip" (some v) none)
    else
      .error "Skip must be a non-negative integer"
  | c => .ok (conds ++ [condOf c])

/-- A chain of fluent calls, left to right; a thrown `TypeError` aborts
the chain. -/
def applyCalls (conds : List Condition) : List FluentCall → Except String (List Condition)
  | [] => .ok conds
  | c :: rest =>
    match applyCall conds c with
    | .ok conds2 => applyCalls conds2 rest
    | .error e => .error e

/-- The request body a terminal operation sends, after `#makeRequest`
merges `collection` and `token` over the operation-specific fields
(part_011 lines 163-187). `none` = field absent from the body. -/
structure RequestEnvelope : Type where
  collection : String
  token : String
  item : Option JsVal := none
  itemId : Option JsVal := none
  conditions : Option (List Condition) := none
  options : Option JsVal := none

/-- The state a `QueryBuilder` closes over: its identity (held by the
inner `WixRequest`) and the accumulated conditions. -/
structure BuilderState : Type where
  collection : String
  token : String
  conditions : List Condition

/-- A terminal operation with its direct arguments (part_010 lines
428-498): `insert`/`save`/`update` carry an item, `remove` an itemId,
`truncate` nothing, `find` nothing — each plus options. -/
inductive TerminalOp : Type where
  | insert (item : JsVal) (options : JsVal) : TerminalOp
  | save (item : JsVal) (options : JsVal) : TerminalOp
  | update (item : JsVal) (options : JsVal) : TerminalOp
  | remove (itemId : JsVal) (options : JsVal) : TerminalOp
  | truncate (options : JsVal) : TerminalOp
  | find (options : JsVal) : TerminalOp

/-- Dispatch of a terminal operation (part_010 lines 428-498 through
part_011 lines 61-127): the envelope it sends, paired with the builder
state after the call — the methods never write `#conditions`, and only
`find` passes `this.#conditions` into the body. -/
def dispatch (st : BuilderState) : TerminalOp → RequestEnvelope × BuilderState
  | .insert item options =>
    ({ collection := st.collection, token := st.token,
       item := some item, options := some options }, st)
  | .save item options =>
    ({ collection := st.collection, token := st.token,
       item := some item, options := some options }, st)
  | .update item options =>
    ({ collection := st.collection, token := st.token,
       item := some item, options := some options }, st)
  | .remove itemId options =>
    ({ collection := st.collection, token := st.token,
       itemId := some itemId, options := some options }, st)
  | .truncate options =>
    ({ collection := st.collection, token := st.token,
       options := some options }, st)
  | .find options =>
    ({ collection := st.collection, token := st.token,
       conditions := some st.conditions, options := some options }, st)

/-!
## Concrete sample inputs

Closed values used by the witness and counterexample theorems below.
-/

/-- All five network keywords are absent from the message: the message-based
part of `isRetryableError` finds nothing. -/
def noNetworkWords (m : String) : Bool :=
  !(strIncludes m "timeout") && !(strIncludes m "network") && !(strIncludes m "fetch")
    && !(strIncludes m "ECONNREFUSED") && !(strIncludes m "ETIMEDOUT")

/-- A retry configuration treating every error as retryable. -/
def alwaysFailCfg : RetryConfig String :=
  { maxAttempts := 3, baseDelay := 1, maxDelay := 4, isRetryable := fun _ => true }

/-- An operation failing identically on every attempt. -/
def alwaysFailFn : Nat → Except String Unit :=
  fun _ => .error "boom"

/-- A configuration whose predicate accepts only the error `"transient"`. -/
def stopCfg : RetryConfig String :=
  { maxAttempts := 3, baseDelay := 1, maxDelay := 4, isRetryable := fun s => s == "transient" }

/-- Fails retryably on attempt 1, non-retryably from attempt 2 on. -/
def stopFn : Nat → Except String Unit :=
  fun attempt => if attempt = 1 then .error "transient" else .error "fatal"

/-- A body with an unrecognized (but string-typed) `status` literal. -/
def pendingBody : JsVal :=
  .obj [("status", .str "pending")]

/-- A pagination object of the shape the `query` route returns. -/
def paginationSample : JsVal :=
  .obj [("total_items", .num 0), ("total_pages", .num 0), ("per_page", .num 25),
        ("current_page", .num 1), ("has_next_page", .bool false), ("has_prev_page", .bool false)]

/-- `{status:"success", result:{items:[], pagination:{...}}}`. -/
def successBodySample : JsVal :=
  .obj [("status", .str "success"),
        ("result", .obj [("items", .arr []), ("pagination", paginationSample)])]

/-- An application-error body whose `errorMessage` happens to contain the
word `timeout`. -/
def timeoutFailedBody : JsVal :=
  .obj [("status", .str "failed"), ("error", .str "operation_failed"),
        ("errorMessage", .str "database timeout while applying the operation")]

/-- An application-error body whose derived message contains no network
keyword. -/
def unauthorizedBody : JsVal :=
  .obj [("status", .str "failed"), ("error", .str "unauthorized")]

/-- Attempt 1 answers 200 with the `timeout`-worded application error,
later attempts answer 200 with a success body. -/
def c8Server : Nat → ServerStep :=
  fun attempt =>
    if attempt = 1 then .http 200 "OK" (some timeoutFailedBody)
    else .http 200 "OK" (some successBodySample)

/-- Every attempt answers 200 with the `unauthorized` application error. -/
def c8PlainServer : Nat → ServerStep :=
  fun _ => .http 200 "OK" (some unauthorizedBody)

/-- A fluent chain: `eq("status","published").limit(10).ascending("title")`. -/
def sampleCalls : List FluentCall :=
  [.eq "status" (.str "published"), .limit (.num 10), .ascending "title"]

/-!
## Executor lemmas

Structural facts about `runRetry`, shared by the claims about `withRetry`.
-/

theorem runRetry_attempts_pos {E A : Type} (fn : Nat → Except E A) (cfg : RetryConfig E)
    (a r : Nat) (hr : 1 ≤ r) : 1 ≤ (runRetry fn cfg a r).attemptsMade := by
  obtain ⟨r', rfl⟩ : ∃ r', r = r' + 1 := ⟨r - 1, by omega⟩
  cases h : fn a with
  | ok v =>
    have : (runRetry fn cfg a (r' + 1)).attemptsMade = 1 := by
      simp only [runRetry, h]
    omega
  | error e =>
    by_cases hc : r' = 0 ∨ cfg.isRetryable e = false
    · have : (runRetry fn cfg a (r' + 1)).attemptsMade = 1 := by
        simp only [runRetry, h, if_pos hc]
      omega
    · have : (runRetry fn cfg a (r' + 1)).attemptsMade
          = (runRetry fn cfg (a + 1) r').attemptsMade + 1 := by
        simp only [runRetry, h, if_neg hc]
      omega

/-- One loop step, successful attempt. -/
theorem runRetry_step_ok {E A : Type} {fn : Nat → Except E A} {cfg : RetryConfig E}
    {a r : Nat} {v : A} (h : fn a = Except.ok v) :
    runRetry fn cfg a (r + 1) = ⟨RetryOutcome.ok v, 1, [], []⟩ := by
  simp only [runRetry, h]

/-- One loop step, failed attempt on the last attempt or with a
non-retryable error: throw it at once. -/
theorem runRetry_step_stop {E A : Type} {fn : Nat → Except E A} {cfg : RetryConfig E}
    {a r : Nat} {e : E} (h : fn a = Except.error e)
    (hc : r = 0 ∨ cfg.isRetryable e = false) :
    runRetry fn cfg a (r + 1) = ⟨RetryOutcome.err e, 1, [], []⟩ := by
  simp only [runRetry, h, if_pos hc]

/-- One loop step, failed attempt with retries left: record the `onRetry`
call and the sleep, move to the next attempt. -/
theorem runRetry_step_retry {E A : Type} {fn : Nat → Except E A} {cfg : RetryConfig E}
    {a r : Nat} {e : E} (h : fn a = Except.error e)
    (hc : ¬(r = 0 ∨ cfg.isRetryable e = false)) :
    runRetry fn cfg a (r + 1)
      = ⟨(runRetry fn cfg (a + 1) r).result,
         (runRetry fn cfg (a + 1) r).attemptsMade + 1,
         (e, a, backoffDelay cfg.baseDelay cfg.maxDelay a)
           :: (runRetry fn cfg (a + 1) r).onRetryEvents,
         backoffDelay cfg.baseDelay cfg.maxDelay a :: (runRetry fn cfg (a + 1) r).sleeps⟩ := by
  simp only [runRetry, h, if_neg hc]

/-- When every attempt in the window fails with a retryable error, the loop
uses every remaining attempt and ends by throwing the last window attempt's
error. -/
theorem runRetry_allFail {E A : Type} (fn : Nat → Except E A) (cfg : RetryConfig E)
    (err : Nat → E) :
    ∀ r : Nat, 1 ≤ r → ∀ a : Nat,
      (∀ i, a ≤ i → i < a + r → fn i = Except.error (err i) ∧ cfg.isRetryable (err i) = true) →
      (runRetry fn cfg a r).attemptsMade = r
        ∧ (runRetry fn cfg a r).result = RetryOutcome.err (err (a + r - 1)) := by
  intro r
  induction r with
  | zero => omega
  | succ r ih =>
    intro _ a h
    have hfa := h a (le_refl a) (by omega)
    by_cases hr0 : r = 0
    · subst hr0
      rw [runRetry_step_stop hfa.1 (Or.inl rfl)]
      exact ⟨rfl, by simp⟩
    · have hcond : ¬(r = 0 ∨ cfg.isRetryable (err a) = false) := by
        simp [hr0, hfa.2]
      rw [runRetry_step_retry hfa.1 hcond]
      have ihh := ih (by omega) (a + 1) (fun i h1 h2 => h i (by omega) (by omega))
      refine ⟨?_, ?_⟩
      · show (runRetry fn cfg (a + 1) r).attemptsMade + 1 = r + 1
        rw [ihh.1]
      · show (runRetry fn cfg (a + 1) r).result = RetryOutcome.err (err (a + (r + 1) - 1))
        rw [ihh.2, show a + 1 + r - 1 = a + (r + 1) - 1 from by omega]

/-- When the first `j` window attempts fail retryably and attempt `a + j`
fails non-retryably, the loop stops there: `j + 1` invocations, the
non-retryable error thrown, and exactly one `onRetry` call and one sleep per
retried attempt, with the exponential-backoff delays. -/
theorem runRetry_stops {E A : Type} (fn : Nat → Except E A) (cfg : RetryConfig E)
    (err : Nat → E) (e : E) :
    ∀ j a r : Nat, j < r →
      (∀ i, a ≤ i → i < a + j → fn i = Except.error (err i) ∧ cfg.isRetryable (err i) = true) →
      fn (a + j) = Except.error e → cfg.isRetryable e = false →
      (runRetry fn cfg a r).result = RetryOutcome.err e
        ∧ (runRetry fn cfg a r).attemptsMade = j + 1
        ∧ (runRetry fn cfg a r).onRetryEvents
            = (List.range j).map
                (fun i => (err (a + i), a + i, backoffDelay cfg.baseDelay cfg.maxDelay (a + i)))
        ∧ (runRetry fn cfg a r).sleeps
            = (List.range j).map (fun i => backoffDelay cfg.baseDelay cfg.maxDelay (a + i)) := by
  intro j
  induction j with
  | zero =>
    intro a r hjr h hfe hnr
    obtain ⟨r', rfl⟩ : ∃ r', r = r' + 1 := ⟨r - 1, by omega⟩
    rw [show a + 0 = a from rfl] at hfe
    rw [runRetry_step_stop hfe (Or.inr hnr)]
    exact ⟨rfl, rfl, rfl, rfl⟩
  | succ j ih =>
    intro a r hjr h hfe hnr
    obtain ⟨r', rfl⟩ : ∃ r', r = r' + 1 := ⟨r - 1, by omega⟩
    have hfa := h a (le_refl a) (by omega)
    have hr0 : r' ≠ 0 := by omega
    have hcond : ¬(r' = 0 ∨ cfg.isRetryable (err a) = false) := by
      simp [hr0, hfa.2]
    rw [runRetry_step_retry hfa.1 hcond]
    have ihh := ih (a + 1) r' (by omega)
      (fun i h1 h2 => h i (by omega) (by omega))
      (by rw [show a + 1 + j = a + (j + 1) from by omega]; exact hfe) hnr
    have hshift : ∀ i : Nat, a + 1 + i = a + (i + 1) := fun i => by omega
    refine ⟨?_, ?_, ?_, ?_⟩
    · show (runRetry fn cfg (a + 1) r').result = RetryOutcome.err e
      exact ihh.1
    · show (runRetry fn cfg (a + 1) r').attemptsMade + 1 = j + 1 + 1
      rw [ihh.2.1]
    · show (err a, a, backoffDelay cfg.baseDelay cfg.maxDelay a)
          :: (runRetry fn cfg (a + 1) r').onRetryEvents
        = (List.range (j + 1)).map
            (fun i => (err (a + i), a + i, backoffDelay cfg.baseDelay cfg.maxDelay (a + i)))
      rw [ihh.2.2.1, List.range_succ_eq_map, List.map_cons, List.map_map]
      refine congrArg₂ _ (by simp) ?_
      exact List.map_congr_left (fun i _ => by simp [hshift i])
    · show backoffDelay cfg.baseDelay cfg.maxDelay a :: (runRetry fn cfg (a + 1) r').sleeps
        = (List.range (j + 1)).map (fun i => backoffDelay cfg.baseDelay cfg.maxDelay (a + i))
      rw [ihh.2.2.2, List.range_succ_eq_map, List.map_cons, List.map_map]
      refine congrArg₂ _ (by simp) ?_
      exact List.map_congr_left (fun i _ => by simp [hshift i])

/-- In every run the `onRetry` attempt numbers are consecutive from the
first attempt, each paired with its backoff delay, and the sleeps are
exactly the delays passed to `onRetry`. -/
theorem runRetry_events_shape {E A : Type} (fn : Nat → Except E A) (cfg : RetryConfig E) :
    ∀ r a : Nat,
      (runRetry fn cfg a r).onRetryEvents.map (fun ev => (ev.2.1, ev.2.2))
        = (List.range ((runRetry fn cfg a r).attemptsMade - 1)).map
            (fun i => (a + i, backoffDelay cfg.baseDelay cfg.maxDelay (a + i)))
      ∧ (runRetry fn cfg a r).sleeps
          = (runRetry fn cfg a r).onRetryEvents.map (fun ev => ev.2.2) := by
  intro r
  induction r with
  | zero => intro a; exact ⟨rfl, rfl⟩
  | succ r ih =>
    intro a
    cases h : fn a with
    | ok v => rw [runRetry_step_ok h]; exact ⟨rfl, rfl⟩
    | error e =>
      by_cases hcond : r = 0 ∨ cfg.isRetryable e = false
      · rw [runRetry_step_stop h hcond]; exact ⟨rfl, rfl⟩
      · rw [runRetry_step_retry h hcond]
        have hr0 : r ≠ 0 := fun h0 => hcond (Or.inl h0)
        have hpos := runRetry_attempts_pos fn cfg (a + 1) r (by omega)
        obtain ⟨m, hm⟩ : ∃ m, (runRetry fn cfg (a + 1) r).attemptsMade = m + 1 :=
          ⟨(runRetry fn cfg (a + 1) r).attemptsMade - 1, by omega⟩
        have ihh := ih (a + 1)
        have hshift : ∀ i : Nat, a + 1 + i = a + (i + 1) := fun i => by omega
        constructor
        · show ((e, a, backoffDelay cfg.baseDelay cfg.maxDelay a)
              :: (runRetry fn cfg (a + 1) r).onRetryEvents).map (fun ev => (ev.2.1, ev.2.2))
            = (List.range ((runRetry fn cfg (a + 1) r).attemptsMade + 1 - 1)).map
                (fun i => (a + i, backoffDelay cfg.baseDelay cfg.maxDelay (a + i)))
          rw [List.map_cons, ihh.1, hm]
          rw [show m + 1 + 1 - 1 = m + 1 from rfl, show m + 1 - 1 = m from rfl]
          rw [List.range_succ_eq_map, List.map_cons, List.map_map]
          refine congrArg₂ _ (by simp) ?_
          exact List.map_congr_left (fun i _ => by simp [hshift i])
        · show backoffDelay cfg.baseDelay cfg.maxDelay a :: (runRetry fn cfg (a + 1) r).sleeps
            = ((e, a, backoffDelay cfg.baseDelay cfg.maxDelay a)
              :: (runRetry fn cfg (a + 1) r).onRetryEvents).map (fun ev => ev.2.2)
          rw [List.map_cons, ihh.2]

/-- With a non-negative base delay the backoff schedule is non-decreasing
in the attempt number. -/
theorem backoffDelay_mono (b M : ℚ) (hb : 0 ≤ b) (n : Nat) :
    backoffDelay b M n ≤ backoffDelay b M (n + 1) := by
  unfold backoffDelay
  refine min_le_min ?_ le_rfl
  refine mul_le_mul_of_nonneg_left ?_ hb
  exact pow_le_pow_right₀ (by norm_num) (by omega)

/-!
## The claims about the Retry/Timeout Executor
-/

/-- C1: for every retry configuration with `maxAttempts = k` (`k ≥ 1`) and
every operation failing on all attempts with an error the `isRetryable`
predicate accepts, `withRetry` invokes the operation exactly `k` times and
the error it finally propagates is exactly the error of the k-th attempt. -/
theorem c1_retry_bound {E A : Type} (cfg : RetryConfig E) (fn : Nat → Except E A)
    (err : Nat → E) (k : Nat) (hk : 1 ≤ k) (hmax : cfg.maxAttempts = k)
    (hfail : ∀ i, 1 ≤ i → i ≤ k → fn i = Except.error (err i))
    (hretry : ∀ i, 1 ≤ i → i ≤ k → cfg.isRetryable (err i) = true) :
    (withRetry fn cfg).attemptsMade = k
      ∧ (withRetry fn cfg).result = RetryOutcome.err (err k) := by
  have h := runRetry_allFail fn cfg err k hk 1
    (fun i h1 h2 => ⟨hfail i h1 (by omega), hretry i h1 (by omega)⟩)
  unfold withRetry
  rw [hmax]
  rw [show 1 + k - 1 = k from by omega] at h
  exact h

/-- C1 witness: three attempts, all failing with the retryable error
`"boom"`: exactly 3 invocations and `"boom"` propagated. -/
theorem c1_retry_bound_witness :
    (withRetry alwaysFailFn alwaysFailCfg).attemptsMade = 3
      ∧ (withRetry alwaysFailFn alwaysFailCfg).result = RetryOutcome.err "boom" :=
  c1_retry_bound alwaysFailCfg alwaysFailFn (fun _ => "boom") 3 (by norm_num) rfl
    (fun _ _ _ => rfl) (fun _ _ _ => rfl)

/-- C2: with `maxAttempts > 1`, when the n-th attempt fails with a
non-retryable error (all earlier attempts having failed retryably),
`withRetry` propagates that error at once: exactly `n` invocations, and
one `onRetry` call and one sleep per earlier attempt only — none for the
non-retryable failure. With `n = 1` the operation runs exactly once. -/
theorem c2_nonretryable_short_circuit {E A : Type} (cfg : RetryConfig E)
    (fn : Nat → Except E A) (err : Nat → E) (e : E) (n : Nat)
    (_hmax : 1 < cfg.maxAttempts) (hn1 : 1 ≤ n) (hn : n ≤ cfg.maxAttempts)
    (hearlier : ∀ i, 1 ≤ i → i < n →
      fn i = Except.error (err i) ∧ cfg.isRetryable (err i) = true)
    (hfail : fn n = Except.error e) (hnr : cfg.isRetryable e = false) :
    (withRetry fn cfg).result = RetryOutcome.err e
      ∧ (withRetry fn cfg).attemptsMade = n
      ∧ (withRetry fn cfg).onRetryEvents
          = (List.range (n - 1)).map
              (fun i => (err (i + 1), i + 1, backoffDelay cfg.baseDelay cfg.maxDelay (i + 1)))
      ∧ (withRetry fn cfg).sleeps
          = (List.range (n - 1)).map
              (fun i => backoffDelay cfg.baseDelay cfg.maxDelay (i + 1)) := by
  have h := runRetry_stops fn cfg err e (n - 1) 1 cfg.maxAttempts (by omega)
    (fun i h1 h2 => hearlier i h1 (by omega))
    (by rw [show 1 + (n - 1) = n from by omega]; exact hfail) hnr
  unfold withRetry
  have hone : ∀ i : Nat, 1 + i = i + 1 := fun i => by omega
  refine ⟨h.1, by rw [h.2.1]; omega, ?_, ?_⟩
  · rw [h.2.2.1]
    exact List.map_congr_left (fun i _ => by rw [hone i])
  · rw [h.2.2.2]
    exact List.map_congr_left (fun i _ => by rw [hone i])

/-- C2 witness: attempt 1 fails with the retryable `"transient"`, attempt 2
with the non-retryable `"fatal"`: two invocations, `"fatal"` propagated,
one `onRetry` call and one sleep (for attempt 1 only). -/
theorem c2_nonretryable_short_circuit_witness :
    (withRetry stopFn stopCfg).result = RetryOutcome.err "fatal"
      ∧ (withRetry stopFn stopCfg).attemptsMade = 2
      ∧ (withRetry stopFn stopCfg).onRetryEvents
          = (List.range (2 - 1)).map
              (fun i => ("transient", i + 1, backoffDelay stopCfg.baseDelay stopCfg.maxDelay (i + 1)))
      ∧ (withRetry stopFn stopCfg).sleeps
          = (List.range (2 - 1)).map
              (fun i => backoffDelay stopCfg.baseDelay stopCfg.maxDelay (i + 1)) :=
  c2_nonretryable_short_circuit stopCfg stopFn (fun _ => "transient") "fatal" 2
    (by norm_num [stopCfg]) (by norm_num) (by norm_num [stopCfg])
    (fun i h1 h2 => by
      have : i = 1 := by omega
      subst this
      exact ⟨rfl, rfl⟩)
    rfl rfl

/-- C3: in every `withRetry` execution, the `onRetry` observer is called
with attempt numbers 1, 2, … for the successive failed attempts, the delay
passed for attempt n being `min(baseDelay·2^(n-1), maxDelay)`; the slept
delays are exactly the delays passed to `onRetry`; and (for non-negative
`baseDelay` and `maxDelay`) the backoff schedule is non-decreasing. -/
theorem c3_backoff_schedule {E A : Type} (cfg : RetryConfig E) (fn : Nat → Except E A)
    (n : Nat) (hb : 0 ≤ cfg.baseDelay) (_hM : 0 ≤ cfg.maxDelay) :
    ((withRetry fn cfg).onRetryEvents.map (fun ev => (ev.2.1, ev.2.2))
        = (List.range ((withRetry fn cfg).attemptsMade - 1)).map
            (fun i => (i + 1, backoffDelay cfg.baseDelay cfg.maxDelay (i + 1))))
      ∧ (withRetry fn cfg).sleeps
          = (withRetry fn cfg).onRetryEvents.map (fun ev => ev.2.2)
      ∧ backoffDelay cfg.baseDelay cfg.maxDelay n
          ≤ backoffDelay cfg.baseDelay cfg.maxDelay (n + 1) := by
  have h := runRetry_events_shape fn cfg cfg.maxAttempts 1
  have hone : ∀ i : Nat, 1 + i = i + 1 := fun i => by omega
  unfold withRetry
  refine ⟨?_, h.2, backoffDelay_mono _ _ hb n⟩
  rw [h.1]
  exact List.map_congr_left (fun i _ => by rw [hone i])

/-- C3 witness: base delay 1, max delay 4, three always-failing attempts:
the schedule facts instantiated at that run and at `n = 1`. -/
theorem c3_backoff_schedule_witness :
    ((withRetry alwaysFailFn alwaysFailCfg).onRetryEvents.map (fun ev => (ev.2.1, ev.2.2))
        = (List.range ((withRetry alwaysFailFn alwaysFailCfg).attemptsMade - 1)).map
            (fun i => (i + 1, backoffDelay alwaysFailCfg.baseDelay alwaysFailCfg.maxDelay (i + 1))))
      ∧ (withRetry alwaysFailFn alwaysFailCfg).sleeps
          = (withRetry alwaysFailFn alwaysFailCfg).onRetryEvents.map (fun ev => ev.2.2)
      ∧ backoffDelay alwaysFailCfg.baseDelay alwaysFailCfg.maxDelay 1
          ≤ backoffDelay alwaysFailCfg.baseDelay alwaysFailCfg.maxDelay 2 :=
  c3_backoff_schedule alwaysFailCfg alwaysFailFn 1
    (by norm_num [alwaysFailCfg]) (by norm_num [alwaysFailCfg])

/-!
## The claim about the default retryability predicate
-/

/-- C4: the default predicate `isRetryableError` classifies exactly as the
spec's clauses, read in the order stated: a status in 400..499 other than
429/408 is never retryable (even for a network-worded message); status
429, 408 or 5xx is retryable; otherwise a message indicating timeout,
network, fetch, ECONNREFUSED or ETIMEDOUT is retryable; everything else
is not. -/
theorem c4_default_retryability (e : ErrJS) : isRetryableError e = claimedRetryable e := by
  unfold isRetryableError claimedRetryable networkishMessage errStatusNum
  cases hs : e.status with
  | none =>
    simp only [hs, errStatusTruthy, Option.getD, Bool.false_and, Bool.false_eq_true,
      if_false, Bool.if_false_left]
    cases h1 : msgIncludes e.message "timeout" <;>
      cases h2 : msgIncludes e.message "network" <;>
      cases h3 : msgIncludes e.message "fetch" <;>
      cases h4 : msgIncludes e.message "ECONNREFUSED" <;>
      cases h5 : msgIncludes e.message "ETIMEDOUT" <;>
      simp [h1, h2, h3, h4, h5]
  | some s =>
    simp only [hs, errStatusTruthy, Option.getD]
    by_cases h0 : s = 0
    · subst h0
      simp only [bne_self_eq_false, Bool.false_and, Bool.false_eq_true, if_false]
      have hno : ¬(400 ≤ 0 ∧ 0 < 500 ∧ 0 ≠ 429 ∧ 0 ≠ 408) := by omega
      have hno2 : ¬(0 = 429 ∨ 0 = 408 ∨ 500 ≤ 0 ∧ 0 < 600) := by omega
      rw [if_neg hno, if_neg hno2]
      cases h1 : msgIncludes e.message "timeout" <;>
        cases h2 : msgIncludes e.message "network" <;>
        cases h3 : msgIncludes e.message "fetch" <;>
        cases h4 : msgIncludes e.message "ECONNREFUSED" <;>
        cases h5 : msgIncludes e.message "ETIMEDOUT" <;>
        simp [h1, h2, h3, h4, h5]
    · have hbne : (s != 0) = true := by simpa using h0
      simp only [hbne, Bool.true_and]
      by_cases h4xx : 400 ≤ s ∧ s < 500 ∧ s ≠ 429 ∧ s ≠ 408
      · rw [if_pos h4xx]
        have : (decide (400 ≤ s) && decide (s < 500) && (s != 429) && (s != 408)) = true := by
          simp [h4xx.1, h4xx.2.1, h4xx.2.2.1, h4xx.2.2.2]
        rw [this, if_pos rfl]
      · rw [if_neg h4xx]
        have hcond : (decide (400 ≤ s) && decide (s < 500) && (s != 429) && (s != 408)) = false := by
          rcases Decidable.not_and_iff_or_not.mp h4xx with h | h
          · simp [decide_eq_false h]
          · rcases Decidable.not_and_iff_or_not.mp h with h | h
            · simp [decide_eq_false h]
            · rcases Decidable.not_and_iff_or_not.mp h with h | h
              · simp [show s = 429 from not_ne_iff.mp h]
              · simp [show s = 408 from not_ne_iff.mp h]
        rw [hcond]
        simp only [Bool.false_eq_true, if_false]
        by_cases hr : s = 429 ∨ s = 408 ∨ (500 ≤ s ∧ s < 600)
        · rw [if_pos hr]
          have h429 : ((s == 429) = true ∨ (s == 408) = true
              ∨ (decide (500 ≤ s) && decide (s < 600)) = true) := by
            rcases hr with h | h | h
            · exact Or.inl (by simp [h])
            · exact Or.inr (Or.inl (by simp [h]))
            · exact Or.inr (Or.inr (by simp [h.1, h.2]))
          cases h1 : msgIncludes e.message "timeout" <;>
            cases h2 : msgIncludes e.message "network" <;>
            cases h3 : msgIncludes e.message "fetch" <;>
            cases h4 : msgIncludes e.message "ECONNREFUSED" <;>
            cases h5 : msgIncludes e.message "ETIMEDOUT" <;>
            rcases h429 with h | h | h <;>
            simp [h1, h2, h3, h4, h5, h]
        · rw [if_neg hr]
          push_neg at hr
          have e429 : (s == 429) = false := by simp [hr.1]
          have e408 : (s == 408) = false := by simp [hr.2.1]
          have e5xx : (decide (500 ≤ s) && decide (s < 600)) = false := by
            by_cases h5a : 500 ≤ s
            · simp [decide_eq_false (by omega : ¬s < 600)]
            · simp [decide_eq_false h5a]
          cases h1 : msgIncludes e.message "timeout" <;>
            cases h2 : msgIncludes e.message "network" <;>
            cases h3 : msgIncludes e.message "fetch" <;>
            cases h4 : msgIncludes e.message "ECONNREFUSED" <;>
            cases h5 : msgIncludes e.message "ETIMEDOUT" <;>
            simp [h1, h2, h3, h4, h5, e429, e408, e5xx]

/-!
## The claims about the Condition Accumulator and the Query Facade
-/

/-- A fluent call that passes its validation appends exactly its one
condition. -/
theorem applyCall_valid (conds : List Condition) (c : FluentCall)
    (h : callValid c = true) : applyCall conds c = Except.ok (conds ++ [condOf c]) := by
  cases c <;> simp only [applyCall, condOf, addCondition]
  · rw [if_pos (by simpa [callValid] using h)]
  · rw [if_pos (by simpa [callValid] using h)]

/-- C5: a chain of fluent condition calls (each passing its local
validation) appends exactly one condition per call, in call order, with no
reordering, insertion or deduplication; and the conditions array `find()`
hands to the transport is exactly that accumulated sequence. -/
theorem c5_order_preservation (start : List Condition) (calls : List FluentCall)
    (col tok : String) (options : JsVal)
    (hvalid : ∀ c ∈ calls, callValid c = true) :
    applyCalls start calls = Except.ok (start ++ calls.map condOf)
      ∧ (dispatch ⟨col, tok, start ++ calls.map condOf⟩ (TerminalOp.find options)).1.conditions
          = some (start ++ calls.map condOf) := by
  refine ⟨?_, rfl⟩
  induction calls generalizing start with
  | nil => simp [applyCalls]
  | cons c rest ih =>
    have hc := hvalid c (by simp)
    rw [applyCalls, applyCall_valid _ _ hc]
    show applyCalls (start ++ [condOf c]) rest = Except.ok (start ++ (c :: rest).map condOf)
    rw [ih (start ++ [condOf c]) (fun d hd => hvalid d (by simp [hd]))]
    simp

/-- C5 witness: `eq("status","published").limit(10).ascending("title")`
accumulates exactly those three conditions in order, and `find` sends
them. -/
theorem c5_order_preservation_witness :
    applyCalls [] sampleCalls = Except.ok ([] ++ sampleCalls.map condOf)
      ∧ (dispatch ⟨"Posts", "t1", [] ++ sampleCalls.map condOf⟩
          (TerminalOp.find (JsVal.obj []))).1.conditions
          = some ([] ++ sampleCalls.map condOf) :=
  c5_order_preservation [] sampleCalls "Posts" "t1" (JsVal.obj [])
    (by intro c hc; fin_cases hc <;> rfl)

/-- C6: `limit(v)` for `v` not a positive integer and `skip(v)` for `v` not
a non-negative integer throw their `TypeError` at once: no condition is
appended, the chain aborts before anything further (so no request is ever
built from that call). -/
theorem c6_paging_validation (conds : List Condition) (rest : List FluentCall)
    (v w : JsVal) (hv : isPositiveIntVal v = false) (hw : isNonNegIntVal w = false) :
    applyCall conds (FluentCall.limit v) = Except.error "Limit must be a positive integer"
      ∧ applyCall conds (FluentCall.skip w) = Except.error "Skip must be a non-negative integer"
      ∧ applyCalls conds (FluentCall.limit v :: rest)
          = Except.error "Limit must be a positive integer"
      ∧ applyCalls conds (FluentCall.skip w :: rest)
          = Except.error "Skip must be a non-negative integer" := by
  have h1 : applyCall conds (FluentCall.limit v)
      = Except.error "Limit must be a positive integer" := by
    simp [applyCall, hv]
  have h2 : applyCall conds (FluentCall.skip w)
      = Except.error "Skip must be a non-negative integer" := by
    simp [applyCall, hw]
  refine ⟨h1, h2, ?_, ?_⟩
  · rw [applyCalls, h1]
  · rw [applyCalls, h2]

/-- C6 witness: `limit(0)` and `skip(-1)` each fail with their validation
error and abort the chain. -/
theorem c6_paging_validation_witness :
    applyCall [] (FluentCall.limit (JsVal.num 0))
        = Except.error "Limit must be a positive integer"
      ∧ applyCall [] (FluentCall.skip (JsVal.num (-1)))
          = Except.error "Skip must be a non-negative integer"
      ∧ applyCalls [] (FluentCall.limit (JsVal.num 0) :: [])
          = Except.error "Limit must be a positive integer"
      ∧ applyCalls [] (FluentCall.skip (JsVal.num (-1)) :: [])
          = Except.error "Skip must be a non-negative integer" :=
  c6_paging_validation [] [] (JsVal.num 0) (JsVal.num (-1)) (by rfl) (by rfl)

/-- C10: no terminal operation reads or changes the accumulated conditions
except `find`: the builder state after any terminal call is unchanged, the
envelopes of `insert`/`save`/`update`/`remove`/`truncate` carry no
`conditions` field (only their direct arguments), and only `find`'s
envelope carries the accumulated conditions. -/
theorem c10_terminal_ops_frame (st : BuilderState) (op : TerminalOp) :
    (dispatch st op).2 = st
      ∧ (dispatch st op).1.conditions
          = (match op with
             | TerminalOp.find _ => some st.conditions
             | _ => none)
      ∧ (dispatch st op).1.collection = st.collection
      ∧ (dispatch st op).1.token = st.token
      ∧ (dispatch st op).1.item
          = (match op with
             | TerminalOp.insert item _ => some item
             | TerminalOp.save item _ => some item
             | TerminalOp.update item _ => some item
             | _ => none)
      ∧ (dispatch st op).1.itemId
          = (match op with
             | TerminalOp.remove itemId _ => some itemId
             | _ => none) := by
  cases op <;> exact ⟨rfl, rfl, rfl, rfl, rfl, rfl⟩

/-!
## The claims about the Response Normalizer
-/

/-- C7 counterexample: the body `{status: "pending"}` has a `status` that is
none of the two recognized literal values, yet `handleResponse` accepts it
and returns it unchanged instead of yielding a malformed-response
failure. -/
theorem c7_unrecognized_status_accepted :
    handleResponseEH pendingBody = Except.ok pendingBody := rfl

/-- C7 (amended): `handleResponse` yields its malformed-response failure
exactly when the body is falsy or its `status` field is not a string; a
body whose string `status` differs from `"failed"` — recognized literal or
not — is accepted and returned unchanged; and the success-shaped body
parses to a success with an empty item list. -/
theorem c7_response_discrimination (data : JsVal) (s : String) :
    (handleResponseEH data = Except.error EHError.invalidFormat
        ↔ (jsTruthy data = false ∨ isStrOpt (getField data "status") = false))
      ∧ (getField data "status" = some (JsVal.str s) → jsTruthy data = true →
          s ≠ "failed" → handleResponseEH data = Except.ok data)
      ∧ (handleResponseEH successBodySample = Except.ok successBodySample
          ∧ getPath successBodySample ["result", "items"] = some (JsVal.arr [])) := by
  refine ⟨?_, ?_, rfl, rfl⟩
  · unfold handleResponseEH
    by_cases h : (!jsTruthy data || !isStrOpt (getField data "status")) = true
    · rw [if_pos h]
      simp only [Bool.or_eq_true, Bool.not_eq_true'] at h
      simp [h]
    · rw [if_neg h]
      simp only [Bool.or_eq_true, Bool.not_eq_true'] at h
      push_neg at h
      constructor
      · intro hcontra
        by_cases hf : statusIsFailed data = true
        · rw [if_pos hf] at hcontra
          exact absurd (Except.error.inj hcontra) (by simp)
        · rw [if_neg hf] at hcontra
          exact absurd hcontra (by simp)
      · intro hcontra
        rcases hcontra with h1 | h2
        · exact absurd h1 (by simp [h.1])
        · exact absurd h2 (by simp [h.2])
  · intro hstatus htruthy hne
    unfold handleResponseEH
    have h1 : isStrOpt (getField data "status") = true := by rw [hstatus]; rfl
    rw [if_neg (by simp [htruthy, h1])]
    have h2 : statusIsFailed data = false := by
      unfold statusIsFailed
      rw [hstatus]
      simpa using hne
    rw [if_neg (by simp [h2])]

/-- C9: `WixRequest.handleResponse` is total: whatever `response.json()`
produced, it returns (never throws) a value with a truthy `status` — the
parsed body itself when that body has a truthy `status`, and otherwise the
fixed `{status:"failed", error:"invalid_response", errorMessage:...}`
object (also when the JSON parse itself rejected). -/
theorem c9_handle_response_total (parsed : Except String JsVal) (data : JsVal) (e : String) :
    optTruthy (getField (handleResponseW parsed) "status") = true
      ∧ (parsed = Except.ok data → optTruthy (getField data "status") = true →
          handleResponseW parsed = data)
      ∧ (parsed = Except.ok data → optTruthy (getField data "status") = false →
          getField (handleResponseW parsed) "status" = some (JsVal.str "failed")
            ∧ getField (handleResponseW parsed) "error" = some (JsVal.str "invalid_response"))
      ∧ (parsed = Except.error e →
          getField (handleResponseW parsed) "status" = some (JsVal.str "failed")
            ∧ getField (handleResponseW parsed) "error" = some (JsVal.str "invalid_response")) := by
  refine ⟨?_, ?_, ?_, ?_⟩
  · cases parsed with
    | error pe => exact rfl
    | ok d =>
      show optTruthy (getField (handleResponseW (Except.ok d)) "status") = true
      rw [show handleResponseW (Except.ok d)
          = (if isNullV d then invalidResponseObj "Cannot read properties of null (reading 'status')"
             else if optTruthy (getField d "status") then d
             else invalidResponseObj "Invalid response format") from rfl]
      by_cases hn : isNullV d = true
      · rw [if_pos hn]; exact rfl
      · rw [if_neg hn]
        by_cases ht : optTruthy (getField d "status") = true
        · rw [if_pos ht]; exact ht
        · rw [if_neg ht]; exact rfl
  · intro hp ht
    subst hp
    rw [show handleResponseW (Except.ok data)
        = (if isNullV data then invalidResponseObj "Cannot read properties of null (reading 'status')"
           else if optTruthy (getField data "status") then data
           else invalidResponseObj "Invalid response format") from rfl]
    have hn : isNullV data = false := by
      cases data <;> first | rfl | (exact absurd ht (by simp [getField, optTruthy]))
    rw [if_neg (by simp [hn]), if_pos ht]
  · intro hp hf
    subst hp
    rw [show handleResponseW (Except.ok data)
        = (if isNullV data then invalidResponseObj "Cannot read properties of null (reading 'status')"
           else if optTruthy (getField data "status") then data
           else invalidResponseObj "Invalid response format") from rfl]
    by_cases hn : isNullV data = true
    · rw [if_pos hn]; exact ⟨rfl, rfl⟩
    · rw [if_neg hn, if_neg (by simp [hf])]; exact ⟨rfl, rfl⟩
  · intro hp
    subst hp
    exact ⟨rfl, rfl⟩

/-!
## The claim about application errors in the request pipeline
-/

/-- A body whose `status === 'failed'` has a string-typed `status`. -/
theorem statusIsFailed_isStr (data : JsVal) (h : statusIsFailed data = true) :
    isStrOpt (getField data "status") = true := by
  unfold statusIsFailed at h
  unfold isStrOpt
  cases hg : getField data "status" with
  | none => rw [hg] at h; exact absurd h (by simp)
  | some v => rw [hg] at h; cases v <;> simp_all

/-- On a truthy body with `status: "failed"`, part_009's `handleResponse`
throws exactly the formatted application error. -/
theorem handleResponseP9_failed (data : JsVal) (ht : jsTruthy data = true)
    (hf : statusIsFailed data = true) :
    handleResponseP9 data = Except.error (appErrorOf data) := by
  unfold handleResponseP9
  rw [if_neg (by simp [ht, statusIsFailed_isStr data hf]), if_pos hf]

/-- For an error without an HTTP status, `isRetryableError` reduces to the
message keyword scan. -/
theorem isRetryableError_no_status (e : ErrJS) (h : e.status = none) :
    isRetryableError e = networkishMessage e := by
  unfold isRetryableError networkishMessage
  simp only [h, errStatusTruthy, Bool.false_and, Bool.false_eq_true, if_false]
  cases h1 : msgIncludes e.message "timeout" <;>
    cases h2 : msgIncludes e.message "network" <;>
    cases h3 : msgIncludes e.message "fetch" <;>
    cases h4 : msgIncludes e.message "ECONNREFUSED" <;>
    cases h5 : msgIncludes e.message "ETIMEDOUT" <;>
    simp [h1, h2, h3, h4, h5]

/-- An application error whose formatted message avoids all five network
keywords is classified non-retryable. -/
theorem noNetworkWords_not_retryable (body : JsVal)
    (h : noNetworkWords (appMsgOf body) = true) :
    isRetryableError (appErrorOf body) = false := by
  rw [isRetryableError_no_status _ rfl]
  unfold noNetworkWords at h
  unfold networkishMessage
  simp only [Bool.and_eq_true, Bool.not_eq_true'] at h
  obtain ⟨⟨⟨⟨h1, h2⟩, h3⟩, h4⟩, h5⟩ := h
  have hmsg : (appErrorOf body).message = some (appMsgOf body) := rfl
  simp [msgIncludes, hmsg, h1, h2, h3, h4, h5]

/-- C8 counterexample: on a well-formed `status: "failed"` response whose
`errorMessage` mentions `timeout`, the pipeline invokes the HTTP operation
a second time — the application error is classified retryable, against the
claim that an application error is never retried. -/
theorem c8_app_error_retried :
    (executeQuery c8Server).attemptsMade = 2
      ∧ isRetryableError (appErrorOf timeoutFailedBody) = true :=
  ⟨rfl, rfl⟩

/-- C8 (amended): a well-formed `status: "failed"` response raises an
application error carrying no HTTP status, which is retried exactly when
its formatted message contains a network keyword (timeout, network, fetch,
ECONNREFUSED, ETIMEDOUT); when the message contains none of them the
pipeline propagates the failure on its first occurrence — one invocation,
no `onRetry` call, no sleep. -/
theorem c8_app_error_not_retried (server : Nat → ServerStep)
    (status : Nat) (statusText : String) (body : JsVal)
    (hstep : server 1 = ServerStep.http status statusText (some body))
    (hok : 200 ≤ status ∧ status < 300)
    (hbody : jsTruthy body = true)
    (hfailed : statusIsFailed body = true)
    (hmsg : noNetworkWords (appMsgOf body) = true) :
    (executeQuery server).result = RetryOutcome.err (appErrorOf body)
      ∧ (executeQuery server).attemptsMade = 1
      ∧ (executeQuery server).onRetryEvents = []
      ∧ (executeQuery server).sleeps = [] := by
  have hf1 : (fun attempt => attemptResult (server attempt)) 1
      = Except.error (appErrorOf body) := by
    show attemptResult (server 1) = _
    rw [hstep]
    show (if 200 ≤ status ∧ status < 300 then handleResponseP9 body
          else Except.error (createDetailedError status statusText (some body)))
        = Except.error (appErrorOf body)
    rw [if_pos hok]
    exact handleResponseP9_failed body hbody hfailed
  have hnr := noNetworkWords_not_retryable body hmsg
  have h := runRetry_stops (fun attempt => attemptResult (server attempt))
    { isRetryable := isRetryableError } (fun _ => appErrorOf body) (appErrorOf body)
    0 1 3 (by omega) (fun i h1 h2 => absurd h2 (by omega)) hf1 hnr
  exact ⟨h.1, h.2.1, h.2.2.1, h.2.2.2⟩

/-- C8 witness: every attempt answers `{status:"failed",
error:"unauthorized"}`; the pipeline makes exactly one HTTP call and
propagates the application error. -/
theorem c8_app_error_not_retried_witness :
    (executeQuery c8PlainServer).result = RetryOutcome.err (appErrorOf unauthorizedBody)
      ∧ (executeQuery c8PlainServer).attemptsMade = 1
      ∧ (executeQuery c8PlainServer).onRetryEvents = []
      ∧ (executeQuery c8PlainServer).sleeps = [] :=
  c8_app_error_not_retried c8PlainServer 200 "OK" unauthorizedBody rfl
    (by norm_num) rfl rfl rfl

end WixSDK
